import Mathlib

/-!
# Shallow embedding of the mapnik PostGIS `Connection` class

This file models `src/plugins/input/postgis/connection.hpp` (and, for the
constructor, the older variant in `src/unnamed/part_000`) as pure Lean
functions over an explicit connection state.  The libpq handle is modelled
by the fields of `Conn`: the queue of result objects the handle would hand
out through `PQgetResult`, the status/error text the server reports, and
ghost bookkeeping (`released`, `finishCount`) recording which result
objects were released via `PQclear` and how many times `PQfinish` ran.
Environment behaviour that the C++ code merely observes (whether a send
succeeds, what `select` returns, how much wall-clock time passes) is
supplied as explicit oracle arguments.
-/

namespace PostgisConn

/-- Result status of a `PGresult`, as far as the code inspects it
(`PGRES_COMMAND_OK`, `PGRES_TUPLES_OK`, or anything else). -/
inductive ResStatus where
  | commandOk
  | tuplesOk
  | otherStatus
  deriving DecidableEq, Repr

/-- A raw `PGresult` object: an identity (for tracking release) and the
status the server gave it. -/
structure PGRes where
  id : Nat
  status : ResStatus
  deriving DecidableEq, Repr

/-- Errors thrown by the connection, following the spec's taxonomy:
construction failure, query failure, and readiness-wait expiry.  Each
carries the message string the C++ code builds for the
`mapnik::datasource_exception`. -/
inductive DbError where
  | ConnectionFailed (msg : String)
  | QueryFailed (msg : String)
  | TimeoutError (msg : String)
  deriving DecidableEq, Repr

/-- The message carried by a `DbError`. -/
def DbError.msg : DbError → String
  | .ConnectionFailed m => m
  | .QueryFailed m => m
  | .TimeoutError m => m

/-- `Connection` state together with the observable state of the wrapped
libpq handle.

Fields mirroring C++ members: `cursorId`, `closed` (`closed_`),
`pending` (`pending_`), `statement_timeout` (`statement_timeout_`,
4000 ms).

Fields modelling the foreign handle: `connNull` (`conn_ == nullptr`),
`statusBad` (`PQstatus(conn_) == CONNECTION_BAD`), `errText`
(`PQerrorMessage(conn_)`), `queue` (result objects `PQgetResult` will
yield, in order; empty queue means `PQgetResult` returns null).

Ghost bookkeeping: `released` (ids passed to `PQclear`, in order) and
`finishCount` (number of `PQfinish` calls). -/
structure Conn where
  connNull : Bool := false
  statusBad : Bool := false
  errText : String := ""
  queue : List PGRes := []
  released : List Nat := []
  finishCount : Nat := 0
  cursorId : Nat := 0
  closed : Bool := false
  pending : Bool := false
  statement_timeout : Int := 4000
  deriving DecidableEq, Repr

/-- `PQgetResult`: pop the next queued result object, or null when the
queue is exhausted. -/
def PQgetResult (c : Conn) : Option PGRes × Conn :=
  match c.queue with
  | [] => (none, c)
  | r :: rest => (some r, { c with queue := rest })

/-- `PQclear`: release a result object (recorded in the ghost trace). -/
def PQclear (r : PGRes) (c : Conn) : Conn :=
  { c with released := c.released ++ [r.id] }

/-- `Connection::isOK`: `(!closed_) && (PQstatus(conn_) != CONNECTION_BAD)`. -/
def isOK (c : Conn) : Bool :=
  !c.closed && !c.statusBad

/-- `Connection::isPending`: returns `pending_`. -/
def isPending (c : Conn) : Bool :=
  c.pending

/-- `Connection::close`: release the handle via `PQfinish` and set
`closed_`, unless already closed. -/
def close (c : Conn) : Conn :=
  if !c.closed then
    { c with finishCount := c.finishCount + 1, closed := true }
  else
    c

/-- `Connection::~Connection`: the destructor body, identical to
`close()` (releases the handle unless `closed_` is already set). -/
def destruct (c : Conn) : Conn :=
  if !c.closed then
    { c with finishCount := c.finishCount + 1, closed := true }
  else
    c

/-- `Connection::status`: "Uninitialized connection" when the handle is
null, the server's last error message when `isOK()`, otherwise the
literal "Bad connection". -/
def status (c : Conn) : String :=
  if !c.connNull then
    if isOK c then c.errText else "Bad connection"
  else
    "Uninitialized connection"

/-- Decimal rendering of a natural number, modelling what
`std::ostringstream << int` prints (digits base 10, most significant
first, with `0` printed as "0"). -/
def natToDecimal (n : Nat) : String :=
  if n = 0 then "0" else ⟨(Nat.digits 10 n).reverse.map Nat.digitChar⟩

/-- `Connection::new_cursor_name`: `s << "mapnik_" << (cursorId++)`;
returns the minted name together with the updated connection. -/
def new_cursor_name (c : Conn) : String × Conn :=
  ("mapnik_" ++ natToDecimal c.cursorId, { c with cursorId := c.cursorId + 1 })

/-- `n` consecutive calls to `new_cursor_name`, collecting the returned
names in order. -/
def cursorNames (c : Conn) : Nat → List String × Conn
  | 0 => ([], c)
  | n + 1 =>
    let (s, c1) := new_cursor_name c
    let (rest, c2) := cursorNames c1 n
    (s :: rest, c2)

/-- Substring containment on strings, used to state that an error message
carries the SQL text / diagnostic text. -/
def containsStr (msg sub : String) : Prop :=
  ∃ a b : String, msg = a ++ sub ++ b

/-! ## Constructor (`Connection::Connection`)

The constructor appears in two variants in the repository:
`src/plugins/input/postgis/connection.hpp` calls `close()` before
throwing on a failed connect, while the `src/unnamed/part_000` variant
throws without closing.  Both are embedded. -/

/-- Environment for `PQconnectdb`: what the server/library reports about
the freshly created handle. -/
structure ConnectEnv where
  statusOk : Bool
  statusBad : Bool := false
  errText : String := ""
  connNull : Bool := false
  deriving DecidableEq, Repr

/-- `connect_with_pass`: the constructor appends
`" password=" ++ *password` exactly when a password is supplied and
non-empty. -/
def connectString (connection_str : String) (password : Option String) : String :=
  match password with
  | some p => if p ≠ "" then connection_str ++ " password=" ++ p else connection_str
  | none => connection_str

/-- `PQconnectdb`: creates the handle; the string is consumed by the
foreign library, whose observable behaviour is given by `env`. -/
def PQconnectdb (s : String) (env : ConnectEnv) : Conn :=
  let _ := s
  { connNull := env.connNull, statusBad := env.statusBad, errText := env.errText }

/-- `Connection::Connection` as in
`src/plugins/input/postgis/connection.hpp`: build `connect_with_pass`,
create the handle, and on a not-OK status build the error message, call
`close()`, then throw.  Returns the outcome together with the handle
state at exit. -/
def connect (connection_str : String) (password : Option String) (env : ConnectEnv) :
    Except DbError Unit × Conn :=
  let c := PQconnectdb (connectString connection_str password) env
  if !env.statusOk then
    let err_msg := "Postgis Plugin: " ++ status c ++ "\nConnection string: '"
      ++ connection_str ++ "'\n"
    let c1 := close c
    (.error (.ConnectionFailed err_msg), c1)
  else
    (.ok (), c)

/-- `Connection::Connection` as in `src/unnamed/part_000`: identical
except that no `close()` is performed before the throw. -/
def connectV0 (connection_str : String) (password : Option String) (env : ConnectEnv) :
    Except DbError Unit × Conn :=
  let c := PQconnectdb (connectString connection_str password) env
  if !env.statusOk then
    let err_msg := "Postgis Plugin: " ++ status c ++ "\nConnection string: '"
      ++ connection_str ++ "'\n"
    (.error (.ConnectionFailed err_msg), c)
  else
    (.ok (), c)

/-! ## `Connection::execute` -/

/-- The drain loop of `execute`:
`while (PGresult *result = PQgetResult(conn_)) { ok = (status == PGRES_COMMAND_OK); PQclear(result); }`. -/
def executeDrain (ok : Bool) (c : Conn) : Bool × Conn :=
  match h : c.queue with
  | [] => (ok, c)
  | result :: rest =>
    executeDrain (result.status == .commandOk) (PQclear result { c with queue := rest })
termination_by c.queue.length
decreasing_by simp [PQclear, h]

/-- `Connection::execute`: send the command (`sendOk` models the return
of `PQsendQuery`); on rejected submission return `false` without
raising; otherwise drain and release every result, reporting the status
of the last one. -/
def execute (c : Conn) (sendOk : Bool) (sql : String) : Bool × Conn :=
  let _ := sql
  if !sendOk then (false, c)
  else executeDrain false c

/-! ## `Connection::executeQuery` with timeout polling

The inner `do { ... } while (PQisBusy(conn_))` loop observes the
environment through `PQconsumeInput`, `PQisBusy`, `select` and the
wall clock.  One `InnerEv` describes one iteration of the loop body:
whether `PQconsumeInput` succeeded, whether the connection was busy,
what `select` returned when it ran, and how much wall-clock time
passed (`pre` milliseconds before the wait, `block` milliseconds spent
blocked inside `select`).  `PQisBusy` is read twice per iteration (in
the `if` and in the `while` condition) but nothing between the two
reads consumes input, so both reads see the same busy state and one
event per iteration is faithful. -/

/-- One iteration of the inner busy/readiness loop, as observed from the
environment. -/
inductive InnerEv where
  /-- `PQconsumeInput` returns 0. -/
  | consumeFail
  /-- `PQconsumeInput` ok and `PQisBusy` false: the loop exits. -/
  | notBusy (pre : Nat)
  /-- busy; `select` reports readiness (returns ≥ 1) after blocking
  `block` ms. -/
  | busyReady (pre block : Nat)
  /-- busy; `select` returns 0 (expiry) after blocking `block` ms. -/
  | busyExpire (pre block : Nat)
  /-- busy; `select` returns -1 with `strerror(errno) = err`, after
  blocking `block` ms. -/
  | busyFail (err : String) (pre block : Nat)
  deriving DecidableEq, Repr

/-- Record of one `select` call: the elapsed time at which it was made,
the budget (`msleft = statement_timeout_ - timeout.wall_clock_elapsed()`)
handed to it, and the time it actually blocked. -/
structure Wait where
  elapsedAt : Nat
  budget : Int
  block : Nat
  deriving DecidableEq, Repr

/-- How the inner busy loop exited. -/
inductive InnerOut where
  | consumeFailed
  | notBusyExit
  | timedOut
  | selErr (err : String)
  deriving DecidableEq, Repr

/-- Result of running the inner busy loop: exit reason, elapsed
wall-clock time, unconsumed environment events, and the trace of
`select` calls made. -/
structure InnerRes where
  out : InnerOut
  elapsed : Nat
  rest : List InnerEv
  waits : List Wait
  deriving DecidableEq, Repr

/-- The inner `do { success = PQconsumeInput(...); if (!success) break;
if (PQisBusy(...)) { msleft = statement_timeout_ - elapsed; select(...);
if (ret < 1) throw; } } while (PQisBusy(...))` loop.  An exhausted event
list stands for a server that is no longer busy. -/
def innerLoop (T : Int) : Nat → List InnerEv → InnerRes
  | elapsed, [] => ⟨.notBusyExit, elapsed, [], []⟩
  | elapsed, ev :: rest =>
    match ev with
    | .consumeFail => ⟨.consumeFailed, elapsed, rest, []⟩
    | .notBusy pre => ⟨.notBusyExit, elapsed + pre, rest, []⟩
    | .busyReady pre block =>
      let e1 := elapsed + pre
      let w : Wait := ⟨e1, T - (e1 : Int), block⟩
      let r := innerLoop T (e1 + block) rest
      ⟨r.out, r.elapsed, r.rest, w :: r.waits⟩
    | .busyExpire pre block =>
      let e1 := elapsed + pre
      ⟨.timedOut, e1 + block, rest, [⟨e1, T - (e1 : Int), block⟩]⟩
    | .busyFail err pre block =>
      let e1 := elapsed + pre
      ⟨.selErr err, e1 + block, rest, [⟨e1, T - (e1 : Int), block⟩]⟩

/-- How `executeQuery`'s outer `while (true)` drain loop exited. -/
inductive LoopExit where
  /-- `select` returned 0: connection closed, `TimeoutError` thrown. -/
  | timedOut
  /-- `select` returned -1: connection closed, `QueryFailed` thrown. -/
  | selFailed (err : String)
  /-- `PQconsumeInput` failed: `ok = false`, break. -/
  | consumeFailed
  /-- `PQgetResult` returned null: the drain is complete. -/
  | drained
  deriving DecidableEq, Repr

/-- Result of the outer drain loop: exit reason, the `ok` flag, the held
result object (`result`), connection state, elapsed time, `select`
trace, and the result objects retrieved by `PQgetResult`, in order. -/
structure QLoopRes where
  exit : LoopExit
  ok : Bool
  held : Option PGRes
  conn : Conn
  elapsed : Nat
  waits : List Wait
  retrieved : List PGRes
  deriving DecidableEq, Repr

/-- The `if ( result ) PQclear(result);` step of `executeQuery`'s drain
loop: release the previously held result object, if any. -/
def releaseHeld (held : Option PGRes) (c : Conn) : Conn :=
  match held with
  | some prev => PQclear prev c
  | none => c

/-- The ids released by a full drain of queue `q` entered with `held`
as the previously held result object: the held object (if any) plus
every queue element except the last, which stays held. -/
def drainReleases (held : Option PGRes) (q : List PGRes) : List Nat :=
  match q with
  | [] => []
  | _ :: _ =>
    (match held with | none => [] | some prev => [prev.id]) ++ (q.dropLast).map PGRes.id

/-- The outer `while (true)` loop of `executeQuery`: run the inner busy
loop; on a wait fault close the connection (`const_cast` close) and
exit; on consume failure set `ok = false` and break; otherwise retrieve
the next result object (`q` is the handle's queue, kept equal to
`c.queue` so that the recursion is structural), record its status in
`ok`, release the previously held object and hold the new one. -/
def queryLoop (T : Int) (q : List PGRes) (c : Conn) (elapsed : Nat)
    (script : List InnerEv) (ok : Bool) (held : Option PGRes) : QLoopRes :=
  let r := innerLoop T elapsed script
  match r.out with
  | .timedOut => ⟨.timedOut, ok, held, close c, r.elapsed, r.waits, []⟩
  | .selErr err => ⟨.selFailed err, ok, held, close c, r.elapsed, r.waits, []⟩
  | .consumeFailed => ⟨.consumeFailed, false, held, c, r.elapsed, r.waits, []⟩
  | .notBusyExit =>
    match q with
    | [] => ⟨.drained, ok, held, c, r.elapsed, r.waits, []⟩
    | tmp :: restQ =>
      let res := queryLoop T restQ (releaseHeld held { c with queue := restQ })
        r.elapsed r.rest (tmp.status == .tuplesOk) (some tmp)
      { res with waits := r.waits ++ res.waits, retrieved := tmp :: res.retrieved }

/-- Environment for one `executeQuery` call: whether the submission
(`PQsendQuery` / `PQsendQueryParams`) succeeds, the socket descriptor
`PQsocket` returns, and the behaviour of the polling loop. -/
structure QueryEnv where
  sendOk : Bool
  sock : Int
  script : List InnerEv
  deriving DecidableEq, Repr

/-- `Connection::executeQuery` from
`src/plugins/input/postgis/connection.hpp`: submit, resolve the socket,
fail immediately on submission/socket failure; otherwise run the
timeout-polling drain loop; map a wait expiry to `TimeoutError`, a
`select` error to `QueryFailed` (closing first, as the loop does), and
a final non-`PGRES_TUPLES_OK` status to `QueryFailed` after releasing
the held result; otherwise wrap the held result in a `ResultSet`. -/
def executeQuery (c : Conn) (env : QueryEnv) (sql : String) (type : Nat := 0) :
    Except DbError (Option PGRes) × Conn :=
  let _ := type
  let success : Bool := env.sendOk && decide (0 ≤ env.sock)
  if !success then
    (.error (.QueryFailed ("Postgis Plugin: " ++ status c
      ++ "\nin executeQuery Full sql was: '" ++ sql ++ "'\n")), c)
  else
    let r := queryLoop c.statement_timeout c.queue c 0 env.script false none
    match r.exit with
    | .timedOut =>
      (.error (.TimeoutError ("Postgis Plugin: " ++ "timeout "
        ++ "\nin executeQuery Full sql was: '" ++ sql ++ "'\n")), r.conn)
    | .selFailed err =>
      (.error (.QueryFailed ("Postgis Plugin: " ++ "select: " ++ err
        ++ "\nin executeQuery Full sql was: '" ++ sql ++ "'\n")), r.conn)
    | _ =>
      if !r.ok then
        let c2 := match r.held with
          | some res => PQclear res r.conn
          | none => r.conn
        (.error (.QueryFailed ("Postgis Plugin: " ++ status r.conn
          ++ "\nin executeQuery Full sql was: '" ++ sql ++ "'\n")), c2)
      else
        (.ok r.held, r.conn)

/-- Wall-clock consistency of a `select` trace: each wait happens no
earlier than the running elapsed time, and the clock then advances past
the wait's blocking time, ending no later than the final elapsed time. -/
def chain : Nat → List Wait → Nat → Prop
  | e, [], e2 => e ≤ e2
  | e, w :: ws, e2 => e ≤ w.elapsedAt ∧ chain (w.elapsedAt + w.block) ws e2

/-- A `select` trace is conformant when each call blocked no longer
than the (clamped) budget it was given, i.e. the wait primitive
honoured its timeout argument. -/
def waitsConformant (ws : List Wait) : Prop :=
  ∀ w ∈ ws, (w.block : Int) ≤ max w.budget 0

instance (ws : List Wait) : Decidable (waitsConformant ws) := by
  unfold waitsConformant
  infer_instance

/-! ## Asynchronous protocol -/

/-- The `while (result) { PQclear(result); result = PQgetResult(conn_); }`
loop of `clearAsyncResult`, entered with a non-null `result`. -/
def drainLoop (res : PGRes) (c : Conn) : Conn :=
  match h : (PQclear res c).queue with
  | [] => PQclear res c
  | r :: rest => drainLoop r { PQclear res c with queue := rest }
termination_by c.queue.length
decreasing_by simp only [PQclear] at h; simp [h]

/-- `Connection::clearAsyncResult`: release the given result object and
every further one `PQgetResult` yields, then clear `pending_`. -/
def clearAsyncResult (r : Option PGRes) (c : Conn) : Conn :=
  let c1 := match r with
    | none => c
    | some res => drainLoop res c
  { c1 with pending := false }

/-- `Connection::executeAsyncQuery`: submit (`sendOk` models the return
of `PQsendQuery`/`PQsendQueryParams`, chosen by `type`); on failure,
drain whatever the handle has queued via `clearAsyncResult`, `close()`,
and throw `QueryFailed`; on success set `pending_ = true`. -/
def executeAsyncQuery (c : Conn) (sendOk : Bool) (sql : String) (type : Nat := 0) :
    Except DbError Bool × Conn :=
  let _ := type
  let result : Nat := if sendOk then 1 else 0
  if result ≠ 1 then
    let err_msg := "Postgis Plugin: " ++ status c
      ++ "\nin executeAsyncQuery Full sql was: '" ++ sql ++ "'\n"
    let (r, c1) := PQgetResult c
    let c2 := clearAsyncResult r c1
    let c3 := close c2
    (.error (.QueryFailed err_msg), c3)
  else
    (.ok true, { c with pending := true })

/-- `Connection::getNextAsyncResult`: take the next result object; if it
is non-null with a status other than `PGRES_TUPLES_OK`, drain, close and
throw `QueryFailed`; otherwise wrap it (possibly null) in a `ResultSet`. -/
def getNextAsyncResult (c : Conn) : Except DbError (Option PGRes) × Conn :=
  let (result, c1) := PQgetResult c
  match result with
  | some res =>
    if res.status ≠ .tuplesOk then
      let err_msg := "Postgis Plugin: " ++ status c1 ++ "\nin getNextAsyncResult"
      let c2 := clearAsyncResult (some res) c1
      let c3 := close c2
      (.error (.QueryFailed err_msg), c3)
    else
      (.ok (some res), c1)
  | none => (.ok none, c1)

/-- `Connection::getAsyncResult`: take the next result object; if it is
null or its status is not `PGRES_TUPLES_OK`, drain, close and throw
`QueryFailed`; otherwise wrap and return it. -/
def getAsyncResult (c : Conn) : Except DbError (Option PGRes) × Conn :=
  let (result, c1) := PQgetResult c
  let bad : Bool := match result with
    | none => true
    | some res => res.status != .tuplesOk
  if bad then
    let err_msg := "Postgis Plugin: " ++ status c1 ++ "\nin getAsyncResult"
    let c2 := clearAsyncResult result c1
    let c3 := close c2
    (.error (.QueryFailed err_msg), c3)
  else
    (.ok result, c1)

/-! ## Helper lemmas -/

theorem containsStr_of_eq {msg a sub b : String} (h : msg = a ++ sub ++ b) :
    containsStr msg sub :=
  ⟨a, b, h⟩

theorem close_pending (c : Conn) : (close c).pending = c.pending := by
  unfold close; split <;> rfl

theorem close_closed (c : Conn) : (close c).closed = true ∨ close c = c := by
  unfold close
  by_cases h : c.closed <;> simp [h]

theorem digitChar_inj_lt :
    ∀ d1 < 10, ∀ d2 < 10, Nat.digitChar d1 = Nat.digitChar d2 → d1 = d2 := by
  decide

theorem map_digitChar_inj :
    ∀ l1 l2 : List Nat, (∀ x ∈ l1, x < 10) → (∀ x ∈ l2, x < 10) →
      l1.map Nat.digitChar = l2.map Nat.digitChar → l1 = l2
  | [], [], _, _, _ => rfl
  | [], _ :: _, _, _, h => by simp at h
  | _ :: _, [], _, _, h => by simp at h
  | a :: t1, b :: t2, h1, h2, h => by
    simp only [List.map_cons, List.cons.injEq] at h
    have hd := digitChar_inj_lt a (h1 a (by simp)) b (h2 b (by simp)) h.1
    have tl := map_digitChar_inj t1 t2 (fun x hx => h1 x (by simp [hx]))
      (fun x hx => h2 x (by simp [hx])) h.2
    simp [hd, tl]

theorem decimal_render_ne_zero_str (n : Nat) (hn : n ≠ 0) :
    (⟨(Nat.digits 10 n).reverse.map Nat.digitChar⟩ : String) ≠ "0" := by
  intro h
  have hdata : (Nat.digits 10 n).reverse.map Nat.digitChar = ['0'] := by
    simpa using congrArg String.data h
  have hlen : (Nat.digits 10 n).length = 1 := by
    simpa using congrArg List.length hdata
  obtain ⟨d, hd⟩ := List.length_eq_one.mp hlen
  rw [hd] at hdata
  simp only [List.reverse_cons, List.reverse_nil, List.nil_append, List.map_cons,
    List.map_nil, List.cons.injEq, and_true] at hdata
  have hdlt : d < 10 := Nat.digits_lt_base (by norm_num) (hd ▸ List.mem_singleton_self d)
  have hd0 : d = 0 := digitChar_inj_lt d hdlt 0 (by norm_num) (by rw [hdata]; decide)
  have := Nat.ofDigits_digits 10 n
  rw [hd, hd0] at this
  simp [Nat.ofDigits] at this
  exact hn this.symm

theorem natToDecimal_injective : Function.Injective natToDecimal := by
  intro m n h
  unfold natToDecimal at h
  by_cases hm : m = 0 <;> by_cases hn : n = 0
  · rw [hm, hn]
  · exact absurd ((if_pos hm).symm.trans (h.trans (if_neg hn))).symm
      (decimal_render_ne_zero_str n hn)
  · exact absurd (((if_neg hm).symm.trans (h.trans (if_pos hn))))
      (decimal_render_ne_zero_str m hm)
  · rw [if_neg hm, if_neg hn] at h
    have hdata := congrArg String.data h
    simp only [] at hdata
    have hrev : (Nat.digits 10 m).reverse = (Nat.digits 10 n).reverse :=
      map_digitChar_inj _ _
        (fun x hx => Nat.digits_lt_base (by norm_num) (List.mem_reverse.mp hx))
        (fun x hx => Nat.digits_lt_base (by norm_num) (List.mem_reverse.mp hx))
        hdata
    exact Nat.digits.injective 10 (List.reverse_injective hrev)

theorem string_append_left_cancel {a b c : String} (h : a ++ b = a ++ c) : b = c := by
  apply String.ext
  have := congrArg String.data h
  simp only [String.data_append] at this
  exact List.append_cancel_left this

/-! ## C7: idempotent close -/

/-- C7: `close()` is idempotent: the first call (or destruction, if close
was never called) releases the foreign handle exactly once and sets
`closed` to true; every subsequent `close()` call is a no-op and never
releases the handle a second time. -/
theorem claim_C7_close_idempotent (c : Conn) :
    (close c).closed = true
    ∧ close (close c) = close c
    ∧ (c.closed = false → (close c).finishCount = c.finishCount + 1)
    ∧ (c.closed = true → close c = c)
    ∧ destruct c = close c := by
  unfold close destruct
  by_cases h : c.closed <;> simp [h]

/-- Witness for C7 at a concrete connection. -/
theorem claim_C7_close_idempotent_witness :
    ({} : Conn).closed = false
    ∧ (close ({} : Conn)).finishCount = ({} : Conn).finishCount + 1 :=
  ⟨rfl, (claim_C7_close_idempotent {}).2.2.1 rfl⟩

/-! ## C9: cursor-name uniqueness -/

theorem cursorNames_names (c : Conn) : ∀ n,
    (cursorNames c n).1 =
      (List.range n).map (fun i => "mapnik_" ++ natToDecimal (c.cursorId + i)) := by
  intro n
  induction n generalizing c with
  | zero => simp [cursorNames]
  | succ n ih =>
    have hfun : (fun i => "mapnik_" ++ natToDecimal (c.cursorId + 1 + i))
        = ((fun i => "mapnik_" ++ natToDecimal (c.cursorId + i)) ∘ Nat.succ) := by
      funext i
      simp only [Function.comp_apply]
      have h : c.cursorId + 1 + i = c.cursorId + Nat.succ i := by omega
      rw [h]
    simp only [cursorNames, new_cursor_name, ih, List.range_succ_eq_map,
      List.map_cons, List.map_map, hfun, Nat.add_zero]

theorem cursorNames_counter (c : Conn) : ∀ n,
    (cursorNames c n).2.cursorId = c.cursorId + n := by
  intro n
  induction n generalizing c with
  | zero => simp [cursorNames]
  | succ n ih =>
    simp only [cursorNames, new_cursor_name, ih]
    omega

/-- C9: for every `N`, `N` consecutive calls to `new_cursor_name()`
return pairwise-distinct strings, each the fixed prefixed tag "mapnik_"
followed by the decimal value of the cursor counter at the time of the
call, and each call increments the counter. -/
theorem claim_C9_cursor_names (c : Conn) (n : Nat) :
    (cursorNames c n).1 =
      (List.range n).map (fun i => "mapnik_" ++ natToDecimal (c.cursorId + i))
    ∧ (cursorNames c n).2.cursorId = c.cursorId + n
    ∧ (cursorNames c n).1.Nodup := by
  refine ⟨cursorNames_names c n, cursorNames_counter c n, ?_⟩
  rw [cursorNames_names c n]
  apply List.Nodup.map ?_ (List.nodup_range n)
  intro i j hij
  have := natToDecimal_injective (string_append_left_cancel hij)
  omega

/-! ## C6: execute -/

theorem executeDrain_spec (ok : Bool) (c : Conn) :
    executeDrain ok c =
      ((match c.queue.getLast? with
        | none => ok
        | some r => r.status == .commandOk),
       { c with queue := [], released := c.released ++ c.queue.map PGRes.id }) := by
  induction ok, c using executeDrain.induct with
  | case1 ok c h =>
    obtain ⟨cn, sb, et, q, rel, fc, cid, cl, pd, st⟩ := c
    simp only at h
    subst h
    rw [executeDrain]
    simp
  | case2 ok c result rest h ih =>
    obtain ⟨cn, sb, et, q, rel, fc, cid, cl, pd, st⟩ := c
    simp only at h
    subst h
    rw [executeDrain]
    simp only [PQclear] at ih ⊢
    rw [ih]
    cases rest <;> simp [List.getLast?_cons]

/-- C6: `execute(sql)` returns `false` without raising when submission
is rejected; otherwise it drains every result the server returns,
releasing each result object as it is consumed, and returns `true` iff
the last drained result reports `PGRES_COMMAND_OK`. -/
theorem claim_C6_execute (c : Conn) (sql : String) :
    execute c false sql = (false, c)
    ∧ (execute c true sql).1 =
        (match c.queue.getLast? with
          | none => false
          | some r => r.status == .commandOk)
    ∧ (execute c true sql).2.queue = []
    ∧ (execute c true sql).2.released = c.released ++ c.queue.map PGRes.id := by
  refine ⟨rfl, ?_, ?_, ?_⟩ <;>
    simp [execute, executeDrain_spec]

/-! ## C10: exhausted async queue -/

/-- C10: on an exhausted result queue (`PQgetResult` yields null),
`getNextAsyncResult` succeeds with a `ResultSet` wrapping a null
payload and leaves the connection untouched (in particular `pending`
is not cleared), while `getAsyncResult` clears `pending`, force-closes
the connection, releases nothing further (nothing remains queued) and
fails with `QueryFailed`. -/
theorem claim_C10_exhausted_queue (c : Conn) (h : c.queue = []) :
    getNextAsyncResult c = (.ok none, c)
    ∧ (getAsyncResult c).1 =
        .error (.QueryFailed ("Postgis Plugin: " ++ status c ++ "\nin getAsyncResult"))
    ∧ (getAsyncResult c).2.pending = false
    ∧ (getAsyncResult c).2.closed = true
    ∧ (getAsyncResult c).2.queue = []
    ∧ (getAsyncResult c).2.released = c.released := by
  by_cases hc : c.closed <;>
  refine ⟨?_, ?_, ?_, ?_, ?_, ?_⟩ <;>
    simp [getNextAsyncResult, getAsyncResult, PQgetResult, clearAsyncResult, close, h, hc]

/-- Witness for C10 at a concrete connection with an empty queue. -/
theorem claim_C10_exhausted_queue_witness :
    getNextAsyncResult ({ pending := true } : Conn) = (.ok none, { pending := true })
    ∧ (getAsyncResult ({ pending := true } : Conn)).2.pending = false :=
  ⟨(claim_C10_exhausted_queue { pending := true } rfl).1,
   (claim_C10_exhausted_queue { pending := true } rfl).2.2.1⟩

/-! ## Drain helper: `clearAsyncResult` -/

theorem drainLoop_spec (res : PGRes) (c : Conn) :
    drainLoop res c =
      { c with queue := [], released := c.released ++ res.id :: c.queue.map PGRes.id } := by
  induction res, c using drainLoop.induct with
  | case1 res c h =>
    obtain ⟨cn, sb, et, q, rel, fc, cid, cl, pd, st⟩ := c
    simp only [PQclear] at h
    subst h
    rw [drainLoop]
    simp [PQclear]
  | case2 res c r rest h ih =>
    obtain ⟨cn, sb, et, q, rel, fc, cid, cl, pd, st⟩ := c
    simp only [PQclear] at h
    subst h
    rw [drainLoop]
    simp only [PQclear] at ih ⊢
    rw [ih]
    simp

theorem clearAsyncResult_spec (r : Option PGRes) (c : Conn) :
    clearAsyncResult r c =
      { c with
        queue := match r with | none => c.queue | some _ => [],
        released := c.released ++
          (match r with | none => [] | some res => res.id :: c.queue.map PGRes.id),
        pending := false } := by
  cases r <;> simp [clearAsyncResult, drainLoop_spec]

/-! ## C5: async failure paths drain, release, clear pending, force-close -/

/-- C5: on every asynchronous failure path — submission failure in
`executeAsyncQuery`, or a retrieved result whose status is not
`PGRES_TUPLES_OK` in `getNextAsyncResult`/`getAsyncResult` — every
result object obtained from the handle during the call is released
before the error is raised, all remaining queued result objects are
drained and released, `pending` is cleared and the connection is
force-closed. -/
theorem claim_C5_async_failure_cleanup (c : Conn) (sql : String) :
    ((executeAsyncQuery c false sql).1 =
        .error (.QueryFailed ("Postgis Plugin: " ++ status c
          ++ "\nin executeAsyncQuery Full sql was: '" ++ sql ++ "'\n"))
      ∧ (executeAsyncQuery c false sql).2.queue = []
      ∧ (executeAsyncQuery c false sql).2.released = c.released ++ c.queue.map PGRes.id
      ∧ (executeAsyncQuery c false sql).2.pending = false
      ∧ (executeAsyncQuery c false sql).2.closed = true)
    ∧ (∀ res rest, c.queue = res :: rest → res.status ≠ .tuplesOk →
        (getNextAsyncResult c).1 =
          .error (.QueryFailed ("Postgis Plugin: " ++ status c ++ "\nin getNextAsyncResult"))
        ∧ (getNextAsyncResult c).2.queue = []
        ∧ (getNextAsyncResult c).2.released = c.released ++ c.queue.map PGRes.id
        ∧ (getNextAsyncResult c).2.pending = false
        ∧ (getNextAsyncResult c).2.closed = true)
    ∧ (∀ res rest, c.queue = res :: rest → res.status ≠ .tuplesOk →
        (getAsyncResult c).1 =
          .error (.QueryFailed ("Postgis Plugin: " ++ status c ++ "\nin getAsyncResult"))
        ∧ (getAsyncResult c).2.queue = []
        ∧ (getAsyncResult c).2.released = c.released ++ c.queue.map PGRes.id
        ∧ (getAsyncResult c).2.pending = false
        ∧ (getAsyncResult c).2.closed = true) := by
  refine ⟨?_, ?_, ?_⟩
  · cases hq : c.queue <;>
      by_cases hc : c.closed <;>
        simp [executeAsyncQuery, PQgetResult, clearAsyncResult_spec, close, status, isOK, hq, hc]
  · intro res rest hq hs
    by_cases hc : c.closed <;>
      simp [getNextAsyncResult, PQgetResult, clearAsyncResult_spec, close, status, isOK, hq, hs, hc]
  · intro res rest hq hs
    have hs' : (res.status != ResStatus.tuplesOk) = true := by
      simpa using hs
    by_cases hc : c.closed <;>
      simp [getAsyncResult, PQgetResult, clearAsyncResult_spec, close, status, isOK, hq, hs', hc]

/-- Witness for C5: a concrete failing `getNextAsyncResult` call on a
queue holding one error result and one stale result. -/
theorem claim_C5_async_failure_cleanup_witness :
    ({ queue := [⟨3, .otherStatus⟩, ⟨4, .tuplesOk⟩], pending := true } : Conn).queue
      = ⟨3, .otherStatus⟩ :: [⟨4, .tuplesOk⟩]
    ∧ (⟨3, .otherStatus⟩ : PGRes).status ≠ .tuplesOk
    ∧ (getNextAsyncResult
        ({ queue := [⟨3, .otherStatus⟩, ⟨4, .tuplesOk⟩], pending := true } : Conn)).2.released
        = [3, 4] :=
  ⟨rfl, by decide,
    ((claim_C5_async_failure_cleanup
      { queue := [⟨3, .otherStatus⟩, ⟨4, .tuplesOk⟩], pending := true } "").2.1
      ⟨3, .otherStatus⟩ [⟨4, .tuplesOk⟩] rfl (by decide)).2.2.1⟩

/-! ## C2: the pending flag -/

/-- Counterexample to C2 as stated: with one `PGRES_TUPLES_OK` result
queued, `executeAsyncQuery` succeeds and sets `pending`, then
`getAsyncResult()` succeeds — yet `isPending()` still returns `true`
(the success path of `getAsyncResult` never clears `pending_`),
contradicting "after getAsyncResult() succeeds ... isPending() returns
false". -/
theorem claim_C2_counterexample :
    (executeAsyncQuery ({ queue := [⟨0, .tuplesOk⟩] } : Conn) true "SELECT 1").1 = .ok true
    ∧ (getAsyncResult
        (executeAsyncQuery ({ queue := [⟨0, .tuplesOk⟩] } : Conn) true "SELECT 1").2).1
      = .ok (some ⟨0, .tuplesOk⟩)
    ∧ isPending
        (getAsyncResult
          (executeAsyncQuery ({ queue := [⟨0, .tuplesOk⟩] } : Conn) true "SELECT 1").2).2
      = true :=
  ⟨rfl, rfl, rfl⟩

/-- C2 (amended): after a successful `executeAsyncQuery`, `isPending()`
returns true; after any asynchronous call fails, `isPending()` returns
false; but after `getAsyncResult()` (or `getNextAsyncResult()`)
succeeds, `pending` is left unchanged — in particular it remains true —
because only the failure paths run `clearAsyncResult`. -/
theorem claim_C2_amended_pending (c : Conn) (sql : String) :
    isPending (executeAsyncQuery c true sql).2 = true
    ∧ isPending (executeAsyncQuery c false sql).2 = false
    ∧ (∀ e c', getNextAsyncResult c = (.error e, c') → isPending c' = false)
    ∧ (∀ e c', getAsyncResult c = (.error e, c') → isPending c' = false)
    ∧ (∀ r c', getAsyncResult c = (.ok r, c') → isPending c' = isPending c)
    ∧ (∀ r c', getNextAsyncResult c = (.ok r, c') → isPending c' = isPending c) := by
  refine ⟨?_, ?_, ?_, ?_, ?_, ?_⟩
  · simp [executeAsyncQuery, isPending]
  · cases hq : c.queue <;>
      by_cases hc : c.closed <;>
        simp [executeAsyncQuery, PQgetResult, clearAsyncResult_spec, close, isPending, hq, hc]
  all_goals
    intro x c' hcall
  all_goals
    cases hq : c.queue with
    | nil =>
      by_cases hc : c.closed <;>
        simp_all [getNextAsyncResult, getAsyncResult, PQgetResult, clearAsyncResult_spec,
          close, isPending] <;>
        (obtain ⟨h1, h2⟩ := hcall; subst h2; rfl)
    | cons res rest =>
      by_cases hc : c.closed <;>
        by_cases hs : res.status = ResStatus.tuplesOk <;>
        simp_all [getNextAsyncResult, getAsyncResult, PQgetResult, clearAsyncResult_spec,
          close, isPending] <;>
        (obtain ⟨h1, h2⟩ := hcall; subst h2; rfl)

/-- Witness for C2 (amended): a successful submit sets `pending`; a
failing terminal retrieval (empty queue) clears it. -/
theorem claim_C2_amended_pending_witness :
    isPending (executeAsyncQuery ({ queue := [] } : Conn) true "SELECT 1").2 = true
    ∧ isPending (getAsyncResult ({ queue := [] } : Conn)).2 = false :=
  ⟨(claim_C2_amended_pending { queue := [] } "SELECT 1").1,
   (claim_C2_amended_pending { queue := [] } "SELECT 1").2.2.2.1
     (.QueryFailed ("Postgis Plugin: " ++ "" ++ "\nin getAsyncResult"))
     (getAsyncResult ({ queue := [] } : Conn)).2 rfl⟩

/-! ## C4: constructor failure behaviour -/

/-- Counterexample to C4 as stated: in the `src/unnamed/part_000`
variant of the constructor, a failed connect throws without releasing
the handle — after the failure `PQfinish` has not run
(`finishCount = 0`, `closed = false`), contradicting "the foreign
handle is released before construction fails". -/
theorem claim_C4_counterexample :
    (connectV0 "host=localhost dbname=gis" none
        { statusOk := false, errText := "could not connect" }).1
      = .error (.ConnectionFailed ("Postgis Plugin: " ++ "could not connect"
          ++ "\nConnection string: '" ++ "host=localhost dbname=gis" ++ "'\n"))
    ∧ (connectV0 "host=localhost dbname=gis" none
        { statusOk := false, errText := "could not connect" }).2.finishCount = 0
    ∧ (connectV0 "host=localhost dbname=gis" none
        { statusOk := false, errText := "could not connect" }).2.closed = false :=
  ⟨rfl, rfl, rfl⟩

/-- C4 (amended): construction appends the credential to the connection
string only when a non-empty credential is supplied; when the resulting
connection status is not "ok", construction fails with
`ConnectionFailed` whose text contains the server's diagnostic text,
the literal "Connection string:", and the connection string as given
(without the credential).  In the `connection.hpp` variant the foreign
handle is released (`close()`) before the failure; in the `part_000`
variant construction fails without releasing the handle. -/
theorem claim_C4_amended_connect (cs : String) (pw : Option String) (env : ConnectEnv) :
    connectString cs none = cs
    ∧ connectString cs (some "") = cs
    ∧ (∀ p, p ≠ "" → connectString cs (some p) = cs ++ " password=" ++ p)
    ∧ (env.statusOk = false →
        ∃ m, (connect cs pw env).1 = .error (.ConnectionFailed m)
          ∧ (connectV0 cs pw env).1 = .error (.ConnectionFailed m)
          ∧ containsStr m (status (PQconnectdb (connectString cs pw) env))
          ∧ containsStr m "Connection string:"
          ∧ containsStr m cs
          ∧ (connect cs pw env).2.closed = true
          ∧ (connect cs pw env).2.finishCount = 1
          ∧ (connectV0 cs pw env).2.closed = false
          ∧ (connectV0 cs pw env).2.finishCount = 0) := by
  refine ⟨rfl, rfl, ?_, ?_⟩
  · intro p hp
    simp [connectString, hp]
  · intro hfail
    refine ⟨"Postgis Plugin: " ++ status (PQconnectdb (connectString cs pw) env)
      ++ "\nConnection string: '" ++ cs ++ "'\n", ?_, ?_, ?_, ?_, ?_, ?_, ?_, ?_, ?_⟩
    · simp [connect, hfail]
    · simp [connectV0, hfail]
    · exact ⟨"Postgis Plugin: ", "\nConnection string: '" ++ cs ++ "'\n",
        by simp [String.append_assoc]⟩
    · refine ⟨("Postgis Plugin: " ++ status (PQconnectdb (connectString cs pw) env)) ++ "\n",
        " '" ++ cs ++ "'\n", ?_⟩
      have hseg : ("\n" ++ ("Connection string:" ++ (" '" ++ (cs ++ "'\n"))) : String)
          = "\nConnection string: '" ++ (cs ++ "'\n") := by
        rw [← String.append_assoc, ← String.append_assoc]
        rfl
      simp only [String.append_assoc, hseg]
    · exact ⟨"Postgis Plugin: " ++ status (PQconnectdb (connectString cs pw) env)
        ++ "\nConnection string: '", "'\n", rfl⟩
    · simp [connect, hfail, close, PQconnectdb]
    · simp [connect, hfail, close, PQconnectdb]
    · simp [connectV0, hfail, PQconnectdb]
    · simp [connectV0, hfail, PQconnectdb]

/-- Witness for C4 (amended) at a concrete failing connect. -/
theorem claim_C4_amended_connect_witness :
    ({ statusOk := false, errText := "fatal" } : ConnectEnv).statusOk = false
    ∧ (connect "dbname=gis" (some "secret")
        { statusOk := false, errText := "fatal" }).2.finishCount = 1
    ∧ (connectV0 "dbname=gis" (some "secret")
        { statusOk := false, errText := "fatal" }).2.finishCount = 0 := by
  have h := (claim_C4_amended_connect "dbname=gis" (some "secret")
    { statusOk := false, errText := "fatal" }).2.2.2 rfl
  obtain ⟨m, -, -, -, -, -, -, h7, -, h9⟩ := h
  exact ⟨rfl, h7, h9⟩

/-! ## The polling loop: wall-clock accounting -/

theorem close_closed_true (c : Conn) : (close c).closed = true := by
  unfold close; by_cases h : c.closed <;> simp [h]

theorem innerLoop_chain (T : Int) : ∀ (elapsed : Nat) (script : List InnerEv),
    chain elapsed (innerLoop T elapsed script).waits (innerLoop T elapsed script).elapsed := by
  intro elapsed script
  induction script generalizing elapsed with
  | nil => simp [innerLoop, chain]
  | cons ev rest ih =>
    cases ev with
    | consumeFail => simp [innerLoop, chain]
    | notBusy pre => simp [innerLoop, chain]
    | busyReady pre block =>
      exact ⟨Nat.le_add_right _ _, ih (elapsed + pre + block)⟩
    | busyExpire pre block => exact ⟨Nat.le_add_right _ _, le_refl _⟩
    | busyFail err pre block => exact ⟨Nat.le_add_right _ _, le_refl _⟩

theorem innerLoop_budget (T : Int) : ∀ (elapsed : Nat) (script : List InnerEv),
    ∀ w ∈ (innerLoop T elapsed script).waits, w.budget = T - (w.elapsedAt : Int) := by
  intro elapsed script
  induction script generalizing elapsed with
  | nil => simp [innerLoop]
  | cons ev rest ih =>
    cases ev with
    | consumeFail => simp [innerLoop]
    | notBusy pre => simp [innerLoop]
    | busyReady pre block =>
      intro w hw
      rcases List.mem_cons.mp hw with h | h
      · rw [h]
      · exact ih (elapsed + pre + block) w h
    | busyExpire pre block =>
      intro w hw
      rcases List.mem_cons.mp hw with h | h
      · rw [h]
      · simp at h
    | busyFail err pre block =>
      intro w hw
      rcases List.mem_cons.mp hw with h | h
      · rw [h]
      · simp at h

theorem chain_mono : ∀ (ws : List Wait) (e e' e2 : Nat), e' ≤ e →
    chain e ws e2 → chain e' ws e2
  | [], _, _, _, h, hch => le_trans h hch
  | _ :: _, _, _, _, h, hch => ⟨le_trans h hch.1, hch.2⟩

theorem chain_append : ∀ (ws1 : List Wait) (e m e2 : Nat) (ws2 : List Wait),
    chain e ws1 m → chain m ws2 e2 → chain e (ws1 ++ ws2) e2
  | [], e, m, e2, ws2, h1, h2 => chain_mono ws2 m e e2 h1 h2
  | w :: ws1, e, m, e2, ws2, h1, h2 =>
    ⟨h1.1, chain_append ws1 (w.elapsedAt + w.block) m e2 ws2 h1.2 h2⟩

theorem queryLoop_chain (T : Int) (q : List PGRes) (c : Conn) (elapsed : Nat)
    (script : List InnerEv) (ok : Bool) (held : Option PGRes) :
    chain elapsed (queryLoop T q c elapsed script ok held).waits
      (queryLoop T q c elapsed script ok held).elapsed := by
  induction q, c, elapsed, script, ok, held using queryLoop.induct T with
  | case1 t c elapsed script ok held r hout =>
    have hout2 : (innerLoop T elapsed script).out = InnerOut.timedOut := hout
    rw [queryLoop.eq_def]
    simp only [hout2]
    exact innerLoop_chain T elapsed script
  | case2 t c elapsed script ok held r err hout =>
    have hout2 : (innerLoop T elapsed script).out = InnerOut.selErr err := hout
    rw [queryLoop.eq_def]
    simp only [hout2]
    exact innerLoop_chain T elapsed script
  | case3 t c elapsed script ok held r hout =>
    have hout2 : (innerLoop T elapsed script).out = InnerOut.consumeFailed := hout
    rw [queryLoop.eq_def]
    simp only [hout2]
    exact innerLoop_chain T elapsed script
  | case4 c elapsed script ok held r hout =>
    have hout2 : (innerLoop T elapsed script).out = InnerOut.notBusyExit := hout
    rw [queryLoop.eq_def]
    simp only [hout2]
    exact innerLoop_chain T elapsed script
  | case5 c elapsed script ok held r hout result rest ih =>
    have hout2 : (innerLoop T elapsed script).out = InnerOut.notBusyExit := hout
    rw [queryLoop.eq_def]
    simp only [hout2]
    exact chain_append _ _ _ _ _ (innerLoop_chain T elapsed script) ih

theorem queryLoop_budget (T : Int) (q : List PGRes) (c : Conn) (elapsed : Nat)
    (script : List InnerEv) (ok : Bool) (held : Option PGRes) :
    ∀ w ∈ (queryLoop T q c elapsed script ok held).waits,
      w.budget = T - (w.elapsedAt : Int) := by
  induction q, c, elapsed, script, ok, held using queryLoop.induct T with
  | case1 t c elapsed script ok held r hout =>
    have hout2 : (innerLoop T elapsed script).out = InnerOut.timedOut := hout
    rw [queryLoop.eq_def]
    simp only [hout2]
    exact innerLoop_budget T elapsed script
  | case2 t c elapsed script ok held r err hout =>
    have hout2 : (innerLoop T elapsed script).out = InnerOut.selErr err := hout
    rw [queryLoop.eq_def]
    simp only [hout2]
    exact innerLoop_budget T elapsed script
  | case3 t c elapsed script ok held r hout =>
    have hout2 : (innerLoop T elapsed script).out = InnerOut.consumeFailed := hout
    rw [queryLoop.eq_def]
    simp only [hout2]
    exact innerLoop_budget T elapsed script
  | case4 c elapsed script ok held r hout =>
    have hout2 : (innerLoop T elapsed script).out = InnerOut.notBusyExit := hout
    rw [queryLoop.eq_def]
    simp only [hout2]
    exact innerLoop_budget T elapsed script
  | case5 c elapsed script ok held r hout result rest ih =>
    have hout2 : (innerLoop T elapsed script).out = InnerOut.notBusyExit := hout
    rw [queryLoop.eq_def]
    simp only [hout2]
    intro w hw
    rcases List.mem_append.mp hw with h | h
    · exact innerLoop_budget T elapsed script w h
    · exact ih w h

theorem chain_sum_bound (T : Int) : ∀ (ws : List Wait) (e e2 : Nat),
    chain e ws e2 → (∀ w ∈ ws, w.budget = T - (w.elapsedAt : Int)) →
    waitsConformant ws →
    (((ws.map Wait.block).sum : Nat) : Int) ≤ max (T - (e : Int)) 0 := by
  intro ws
  induction ws with
  | nil =>
    intro e e2 _ _ _
    simp
  | cons w ws ih =>
    intro e e2 hch hb hconf
    obtain ⟨he, hch'⟩ := hch
    have hbw : w.budget = T - (w.elapsedAt : Int) := hb w (List.mem_cons_self w ws)
    have hcw : (w.block : Int) ≤ max w.budget 0 := hconf w (List.mem_cons_self w ws)
    rw [hbw] at hcw
    have hsum := ih (w.elapsedAt + w.block) e2 hch'
      (fun x hx => hb x (List.mem_cons_of_mem w hx))
      (fun x hx => hconf x (List.mem_cons_of_mem w hx))
    have hS0 : (0 : Int) ≤ (((ws.map Wait.block).sum : Nat) : Int) := Int.natCast_nonneg _
    simp only [List.map_cons, List.sum_cons]
    push_cast at hsum ⊢
    rcases le_or_lt (0 : Int) (T - (w.elapsedAt : Int)) with hA | hA
    · rw [max_eq_left hA] at hcw
      rcases le_or_lt (0 : Int) (T - ((w.elapsedAt : Int) + (w.block : Int))) with hB | hB
      · rw [max_eq_left hB] at hsum
        have : (0 : Int) ≤ T - (e : Int) := by omega
        rw [max_eq_left this]
        omega
      · rw [max_eq_right (by omega : T - ((w.elapsedAt : Int) + (w.block : Int)) ≤ 0)] at hsum
        have : (0 : Int) ≤ T - (e : Int) := by omega
        rw [max_eq_left this]
        omega
    · rw [max_eq_right (by omega : T - (w.elapsedAt : Int) ≤ 0)] at hcw
      have hb0 : (w.block : Int) = 0 := le_antisymm hcw (Int.natCast_nonneg _)
      have hmax : (0 : Int) ≤ max (T - (e : Int)) 0 := le_max_right _ _
      rw [max_eq_right (by omega : T - ((w.elapsedAt : Int) + (w.block : Int)) ≤ 0)] at hsum
      omega

/-! ## C8: per-wait budget and total blocking-time bound -/

/-- C8: in `executeQuery`'s polling loop, every readiness wait is given
the budget `statement_timeout_ - timeout.wall_clock_elapsed()`
(milliseconds remaining of the original window), and consequently —
whenever the wait primitive honours its timeout argument — the total
time spent blocked in `select` across all iterations is bounded by
`statement_timeout_`, regardless of how many readiness cycles occur. -/
theorem claim_C8_timeout_budget (c : Conn) (env : QueryEnv)
    (hT : 0 ≤ c.statement_timeout)
    (hconf : waitsConformant
      (queryLoop c.statement_timeout c.queue c 0 env.script false none).waits) :
    (∀ w ∈ (queryLoop c.statement_timeout c.queue c 0 env.script false none).waits,
      w.budget = c.statement_timeout - (w.elapsedAt : Int))
    ∧ ((((queryLoop c.statement_timeout c.queue c 0 env.script false none).waits.map
          Wait.block).sum : Nat) : Int) ≤ c.statement_timeout := by
  constructor
  · exact queryLoop_budget c.statement_timeout c.queue c 0 env.script false none
  · have h := chain_sum_bound c.statement_timeout
      (queryLoop c.statement_timeout c.queue c 0 env.script false none).waits 0
      (queryLoop c.statement_timeout c.queue c 0 env.script false none).elapsed
      (queryLoop_chain c.statement_timeout c.queue c 0 env.script false none)
      (queryLoop_budget c.statement_timeout c.queue c 0 env.script false none)
      hconf
    simpa [max_eq_left hT] using h

/-- Witness for C8: a run with two readiness cycles then a drained
queue; the budgets and the 30 ms total blocking time are checked
concretely. -/
theorem claim_C8_timeout_budget_witness :
    (0 : Int) ≤ ({} : Conn).statement_timeout
    ∧ waitsConformant
        (queryLoop ({} : Conn).statement_timeout ({} : Conn).queue {} 0
          [.busyReady 5 10, .busyReady 0 20, .notBusy 0] false none).waits
    ∧ ((((queryLoop ({} : Conn).statement_timeout ({} : Conn).queue {} 0
          [.busyReady 5 10, .busyReady 0 20, .notBusy 0] false none).waits.map
            Wait.block).sum : Nat) : Int) ≤ ({} : Conn).statement_timeout :=
  ⟨by decide, by decide,
    (claim_C8_timeout_budget {}
      { sendOk := true, sock := 0,
        script := [.busyReady 5 10, .busyReady 0 20, .notBusy 0] }
      (by decide) (by decide)).2⟩

/-! ## C1: wait expiry / wait-primitive error in `executeQuery` -/

theorem queryLoop_fault_closed (T : Int) (q : List PGRes) (c : Conn) (elapsed : Nat)
    (script : List InnerEv) (ok : Bool) (held : Option PGRes)
    (h : (queryLoop T q c elapsed script ok held).exit = .timedOut
       ∨ ∃ e, (queryLoop T q c elapsed script ok held).exit = .selFailed e) :
    (queryLoop T q c elapsed script ok held).conn.closed = true := by
  induction q, c, elapsed, script, ok, held using queryLoop.induct T with
  | case1 t c elapsed script ok held r hout =>
    have hout2 : (innerLoop T elapsed script).out = InnerOut.timedOut := hout
    rw [queryLoop.eq_def]
    simp only [hout2]
    exact close_closed_true c
  | case2 t c elapsed script ok held r err hout =>
    have hout2 : (innerLoop T elapsed script).out = InnerOut.selErr err := hout
    rw [queryLoop.eq_def]
    simp only [hout2]
    exact close_closed_true c
  | case3 t c elapsed script ok held r hout =>
    have hout2 : (innerLoop T elapsed script).out = InnerOut.consumeFailed := hout
    rw [queryLoop.eq_def] at h
    simp only [hout2] at h
    rcases h with h | ⟨e, h⟩ <;> simp at h
  | case4 c elapsed script ok held r hout =>
    have hout2 : (innerLoop T elapsed script).out = InnerOut.notBusyExit := hout
    rw [queryLoop.eq_def] at h
    simp only [hout2] at h
    rcases h with h | ⟨e, h⟩ <;> simp at h
  | case5 c elapsed script ok held r hout result rest ih =>
    have hout2 : (innerLoop T elapsed script).out = InnerOut.notBusyExit := hout
    rw [queryLoop.eq_def] at h ⊢
    simp only [hout2] at h ⊢
    exact ih h

/-- C1: for every SQL text, if during `executeQuery` the readiness wait
expires (`select` returns 0) or the wait primitive reports an error
(`select` returns -1), the connection is force-closed before the error
is surfaced, the call fails with `TimeoutError` (expiry) or
`QueryFailed` (wait-primitive error) whose message contains the SQL
text, and afterwards `isOK()` returns false. -/
theorem claim_C1_wait_failure (c : Conn) (env : QueryEnv) (sql : String)
    (hsend : env.sendOk = true) (hsock : 0 ≤ env.sock) :
    ((queryLoop c.statement_timeout c.queue c 0 env.script false none).exit = .timedOut →
      ∃ m, (executeQuery c env sql).1 = .error (.TimeoutError m)
        ∧ containsStr m sql
        ∧ (executeQuery c env sql).2.closed = true
        ∧ isOK (executeQuery c env sql).2 = false)
    ∧ (∀ e, (queryLoop c.statement_timeout c.queue c 0 env.script false none).exit
          = .selFailed e →
      ∃ m, (executeQuery c env sql).1 = .error (.QueryFailed m)
        ∧ containsStr m sql
        ∧ (executeQuery c env sql).2.closed = true
        ∧ isOK (executeQuery c env sql).2 = false) := by
  have hsock2 : decide (0 ≤ env.sock) = true := decide_eq_true hsock
  constructor
  · intro hexit
    have hclosed := queryLoop_fault_closed c.statement_timeout c.queue c 0 env.script
      false none (Or.inl hexit)
    refine ⟨"Postgis Plugin: " ++ "timeout "
      ++ "\nin executeQuery Full sql was: '" ++ sql ++ "'\n", ?_, ?_, ?_, ?_⟩
    · simp [executeQuery, hsend, hsock2, hexit]
    · exact ⟨"Postgis Plugin: " ++ "timeout " ++ "\nin executeQuery Full sql was: '",
        "'\n", rfl⟩
    · simp [executeQuery, hsend, hsock2, hexit, hclosed]
    · simp [executeQuery, hsend, hsock2, hexit, isOK, hclosed]
  · intro e hexit
    have hclosed := queryLoop_fault_closed c.statement_timeout c.queue c 0 env.script
      false none (Or.inr ⟨e, hexit⟩)
    refine ⟨"Postgis Plugin: " ++ "select: " ++ e
      ++ "\nin executeQuery Full sql was: '" ++ sql ++ "'\n", ?_, ?_, ?_, ?_⟩
    · simp [executeQuery, hsend, hsock2, hexit]
    · exact ⟨"Postgis Plugin: " ++ "select: " ++ e ++ "\nin executeQuery Full sql was: '",
        "'\n", rfl⟩
    · simp [executeQuery, hsend, hsock2, hexit, hclosed]
    · simp [executeQuery, hsend, hsock2, hexit, isOK, hclosed]

/-- Witness for C1: a concrete run whose single readiness wait expires. -/
theorem claim_C1_wait_failure_witness :
    ({ sendOk := true, sock := 0, script := [.busyExpire 0 4000] } : QueryEnv).sendOk = true
    ∧ (0 : Int) ≤ ({ sendOk := true, sock := 0, script := [.busyExpire 0 4000] } : QueryEnv).sock
    ∧ (queryLoop ({} : Conn).statement_timeout ({} : Conn).queue {} 0
        ({ sendOk := true, sock := 0, script := [.busyExpire 0 4000] } : QueryEnv).script
        false none).exit = .timedOut
    ∧ ∃ m, (executeQuery {} { sendOk := true, sock := 0, script := [.busyExpire 0 4000] }
          "SELECT pg_sleep(10)").1 = .error (.TimeoutError m)
        ∧ containsStr m "SELECT pg_sleep(10)"
        ∧ (executeQuery {} { sendOk := true, sock := 0, script := [.busyExpire 0 4000] }
            "SELECT pg_sleep(10)").2.closed = true
        ∧ isOK (executeQuery {} { sendOk := true, sock := 0, script := [.busyExpire 0 4000] }
            "SELECT pg_sleep(10)").2 = false :=
  ⟨rfl, by decide, by decide,
    (claim_C1_wait_failure {} { sendOk := true, sock := 0, script := [.busyExpire 0 4000] }
      "SELECT pg_sleep(10)" rfl (by decide)).1 (by decide)⟩

/-! ## C3: the drain loop and post-loop handling -/

theorem releaseHeld_queue (held : Option PGRes) (c : Conn) :
    (releaseHeld held c).queue = c.queue := by
  cases held <;> rfl

theorem queryLoop_drained_spec (T : Int) (q : List PGRes) (c : Conn) (elapsed : Nat)
    (script : List InnerEv) (ok : Bool) (held : Option PGRes)
    (hq : c.queue = q)
    (hexit : (queryLoop T q c elapsed script ok held).exit = .drained) :
    (queryLoop T q c elapsed script ok held).retrieved = q
    ∧ (q = [] → (queryLoop T q c elapsed script ok held).held = held
        ∧ (queryLoop T q c elapsed script ok held).ok = ok)
    ∧ (∀ last, q.getLast? = some last →
        (queryLoop T q c elapsed script ok held).held = some last
        ∧ (queryLoop T q c elapsed script ok held).ok = (last.status == .tuplesOk))
    ∧ (queryLoop T q c elapsed script ok held).conn =
        { c with
          queue := ([] : List PGRes),
          released := c.released ++ drainReleases held q } := by
  induction q, c, elapsed, script, ok, held using queryLoop.induct T with
  | case1 t c elapsed script ok held r hout =>
    have hout2 : (innerLoop T elapsed script).out = InnerOut.timedOut := hout
    rw [queryLoop.eq_def] at hexit
    simp only [hout2] at hexit
    simp at hexit
  | case2 t c elapsed script ok held r err hout =>
    have hout2 : (innerLoop T elapsed script).out = InnerOut.selErr err := hout
    rw [queryLoop.eq_def] at hexit
    simp only [hout2] at hexit
    simp at hexit
  | case3 t c elapsed script ok held r hout =>
    have hout2 : (innerLoop T elapsed script).out = InnerOut.consumeFailed := hout
    rw [queryLoop.eq_def] at hexit
    simp only [hout2] at hexit
    simp at hexit
  | case4 c elapsed script ok held r hout =>
    have hout2 : (innerLoop T elapsed script).out = InnerOut.notBusyExit := hout
    rw [queryLoop.eq_def]
    simp only [hout2]
    obtain ⟨cn, sb, et, qq, rel, fc, cid, cl, pd, st⟩ := c
    simp only at hq
    subst hq
    simp [drainReleases]
  | case5 c elapsed script ok held r hout result rest ih =>
    have hout2 : (innerLoop T elapsed script).out = InnerOut.notBusyExit := hout
    rw [queryLoop.eq_def] at hexit ⊢
    simp only [hout2] at hexit ⊢
    obtain ⟨h1, h2, h3, h4⟩ := ih (by rw [releaseHeld_queue]) hexit
    refine ⟨by simp [h1], by simp, ?_, ?_⟩
    · intro last hlast
      rcases rest with _ | ⟨r2, rest2⟩
      · simp only [List.getLast?_cons, List.getLastD] at hlast
        obtain ⟨hh, ho⟩ := h2 rfl
        injection hlast with hlast
        subst hlast
        exact ⟨by simp [hh], by simp [ho]⟩
      · rw [List.getLast?_cons_cons] at hlast
        obtain ⟨hh, ho⟩ := h3 last hlast
        exact ⟨by simp [hh], by simp [ho]⟩
    · rw [h4]
      obtain ⟨cn, sb, et, qq, rel, fc, cid, cl, pd, st⟩ := c
      simp only at hq
      subst hq
      cases held with
      | none =>
        rcases rest with _ | ⟨r2, rest2⟩ <;>
          simp [releaseHeld, drainReleases]
      | some prev =>
        rcases rest with _ | ⟨r2, rest2⟩ <;>
          simp [releaseHeld, drainReleases, PQclear]

/-- C3: in `executeQuery`'s drain loop each newly retrieved result
object replaces the previously held one, which is released — after a
full drain the retrieved results are exactly the queue, all but the
last are released, and the held object is the last one.  After the
loop, if the final recorded status is not "rows ok" the held result
object is released too and the call fails with `QueryFailed` carrying
the server status text and the SQL; otherwise the held (final) result
object is wrapped into a `ResultSet` and returned to the caller. -/
theorem claim_C3_drain_postloop (c : Conn) (env : QueryEnv) (sql : String)
    (hsend : env.sendOk = true) (hsock : 0 ≤ env.sock)
    (hexit : (queryLoop c.statement_timeout c.queue c 0 env.script false none).exit
      = .drained) :
    (queryLoop c.statement_timeout c.queue c 0 env.script false none).retrieved = c.queue
    ∧ (queryLoop c.statement_timeout c.queue c 0 env.script false none).held
        = c.queue.getLast?
    ∧ (queryLoop c.statement_timeout c.queue c 0 env.script false none).conn.released
        = c.released ++ (c.queue.dropLast).map PGRes.id
    ∧ (queryLoop c.statement_timeout c.queue c 0 env.script false none).ok
        = (match c.queue.getLast? with
           | none => false
           | some last => last.status == .tuplesOk)
    ∧ ((queryLoop c.statement_timeout c.queue c 0 env.script false none).ok = false →
        ∃ m, (executeQuery c env sql).1 = .error (.QueryFailed m)
          ∧ containsStr m
              (status (queryLoop c.statement_timeout c.queue c 0 env.script false none).conn)
          ∧ containsStr m sql
          ∧ (executeQuery c env sql).2.released
              = c.released ++ (c.queue.dropLast).map PGRes.id
                ++ (match c.queue.getLast? with | none => [] | some last => [last.id]))
    ∧ ((queryLoop c.statement_timeout c.queue c 0 env.script false none).ok = true →
        executeQuery c env sql
          = (.ok (queryLoop c.statement_timeout c.queue c 0 env.script false none).held,
             (queryLoop c.statement_timeout c.queue c 0 env.script false none).conn)) := by
  have hsock2 : decide (0 ≤ env.sock) = true := decide_eq_true hsock
  obtain ⟨h1, h2, h3, h4⟩ :=
    queryLoop_drained_spec c.statement_timeout c.queue c 0 env.script false none rfl hexit
  have hheld : (queryLoop c.statement_timeout c.queue c 0 env.script false none).held
      = c.queue.getLast? := by
    cases hlast : c.queue.getLast? with
    | none =>
      have hnil : c.queue = [] := List.getLast?_eq_none_iff.mp hlast
      exact (h2 hnil).1
    | some last => exact (h3 last hlast).1
  have hok : (queryLoop c.statement_timeout c.queue c 0 env.script false none).ok
      = (match c.queue.getLast? with
         | none => false
         | some last => last.status == .tuplesOk) := by
    cases hlast : c.queue.getLast? with
    | none =>
      have hnil : c.queue = [] := List.getLast?_eq_none_iff.mp hlast
      exact (h2 hnil).2
    | some last => exact (h3 last hlast).2
  have hrel : (queryLoop c.statement_timeout c.queue c 0 env.script false none).conn.released
      = c.released ++ (c.queue.dropLast).map PGRes.id := by
    rw [h4]
    rcases hcq : c.queue with _ | ⟨hd, tl⟩ <;> simp [drainReleases]
  refine ⟨h1, hheld, hrel, hok, ?_, ?_⟩
  · intro hokf
    refine ⟨"Postgis Plugin: "
      ++ status (queryLoop c.statement_timeout c.queue c 0 env.script false none).conn
      ++ "\nin executeQuery Full sql was: '" ++ sql ++ "'\n", ?_, ?_, ?_, ?_⟩
    · simp [executeQuery, hsend, hsock2, hexit, hokf]
    · refine ⟨"Postgis Plugin: ",
        "\nin executeQuery Full sql was: '" ++ sql ++ "'\n", ?_⟩
      simp [String.append_assoc]
    · exact ⟨"Postgis Plugin: "
        ++ status (queryLoop c.statement_timeout c.queue c 0 env.script false none).conn
        ++ "\nin executeQuery Full sql was: '", "'\n", rfl⟩
    · cases hlast : c.queue.getLast? with
      | none =>
        have hh : (queryLoop c.statement_timeout c.queue c 0 env.script false none).held
            = none := hheld.trans hlast
        simp [executeQuery, hsend, hsock2, hexit, hokf, hh, hrel]
      | some last =>
        have hh : (queryLoop c.statement_timeout c.queue c 0 env.script false none).held
            = some last := hheld.trans hlast
        simp [executeQuery, hsend, hsock2, hexit, hokf, hh, PQclear, hrel]
  · intro hokt
    simp [executeQuery, hsend, hsock2, hexit, hokt]

/-- Witness for C3 at a concrete two-result drain whose final result
reports "rows ok". -/
theorem claim_C3_drain_postloop_witness :
    ({ sendOk := true, sock := 3, script := [] } : QueryEnv).sendOk = true
    ∧ (0 : Int) ≤ ({ sendOk := true, sock := 3, script := [] } : QueryEnv).sock
    ∧ (queryLoop ({ queue := [⟨7, .otherStatus⟩, ⟨8, .tuplesOk⟩] } : Conn).statement_timeout
        ({ queue := [⟨7, .otherStatus⟩, ⟨8, .tuplesOk⟩] } : Conn).queue
        { queue := [⟨7, .otherStatus⟩, ⟨8, .tuplesOk⟩] } 0 [] false none).exit = .drained
    ∧ (queryLoop ({ queue := [⟨7, .otherStatus⟩, ⟨8, .tuplesOk⟩] } : Conn).statement_timeout
        ({ queue := [⟨7, .otherStatus⟩, ⟨8, .tuplesOk⟩] } : Conn).queue
        { queue := [⟨7, .otherStatus⟩, ⟨8, .tuplesOk⟩] } 0 [] false none).held
        = some ⟨8, .tuplesOk⟩
    ∧ (queryLoop ({ queue := [⟨7, .otherStatus⟩, ⟨8, .tuplesOk⟩] } : Conn).statement_timeout
        ({ queue := [⟨7, .otherStatus⟩, ⟨8, .tuplesOk⟩] } : Conn).queue
        { queue := [⟨7, .otherStatus⟩, ⟨8, .tuplesOk⟩] } 0 [] false none).conn.released
        = [7] :=
  ⟨rfl, by decide, by decide,
    by
      have h := (claim_C3_drain_postloop { queue := [⟨7, .otherStatus⟩, ⟨8, .tuplesOk⟩] }
        { sendOk := true, sock := 3, script := [] } "SELECT 1" rfl (by decide) (by decide)).2.1
      simpa using h,
    by
      have h := (claim_C3_drain_postloop { queue := [⟨7, .otherStatus⟩, ⟨8, .tuplesOk⟩] }
        { sendOk := true, sock := 3, script := [] } "SELECT 1" rfl (by decide) (by decide)).2.2.1
      simpa using h⟩

end PostgisConn
